import Mathlib

/-!
Verification of the Circuit-Solver-Simulator core (CircuitSolver.h /
CircuitSolver.cpp): node registry, component store, MNA assembly,
Gaussian elimination with partial pivoting, and the solve/clear life
cycle.  Doubles are modelled as exact rationals; the C++ `std::vector`
matrix is modelled as a function `Nat → Nat → ℚ` together with the
explicit dimension, and `std::unordered_map` as a lookup function.
Thrown exceptions become `Except` / `Option` error values; a mutating
member function that can throw returns the state the object holds when
the exception escapes.
-/

namespace CircuitSolver

/-- C++ `abs` (fabs) on the rational model of `double`. -/
def rabs (x : ℚ) : ℚ := if x < 0 then -x else x

/-- Dense square matrix, `CircuitSolver.cpp` `vector<vector<double>>`. -/
abbrev Mat := Nat → Nat → ℚ

/-- Dense vector, `CircuitSolver.cpp` `vector<double>`. -/
abbrev Vec := Nat → ℚ

/-- The fixed pivot threshold `EPSILON = 1e-9` of `gaussianElimination`. -/
def EPSILON : ℚ := 1 / 1000000000

/-- Error taxonomy of the solver path (`runtime_error`s thrown inside
`Circuit::solve` and `gaussianElimination`). -/
inductive SolverErr where
  | emptyCircuitError
  | groundReferenceError
  | singularMatrixError
deriving DecidableEq, Repr

/-- Error taxonomy of the insertion path (`invalid_argument`s thrown by
`Circuit::getNodeID` and the component constructors). -/
inductive ValidationErr where
  | emptyNodeName
  | sameNode
  | nonPositiveValue
deriving DecidableEq, Repr

/-- Pivot scan, `CircuitSolver.cpp` lines 42-49: walk the candidate rows
keeping the first row of maximal `abs` value in column `i` (strict `>`
comparison, so ties keep the earlier row). -/
def maxRowAux (A : Mat) (i : Nat) : List Nat → Nat × ℚ → Nat × ℚ
  | [], best => best
  | k :: ks, best =>
      if rabs (A k i) > best.2 then maxRowAux A i ks (k, rabs (A k i))
      else maxRowAux A i ks best

/-- The selected pivot row for column `i`: scan starts at `(i, |A i i|)`
and examines rows `i+1 .. n-1`. -/
def maxRowSel (A : Mat) (i n : Nat) : Nat :=
  (maxRowAux A i (List.range' (i + 1) (n - (i + 1))) (i, rabs (A i i))).1

/-- `swap(A[maxRow], A[i])` on the functional matrix. -/
def swapRows (A : Mat) (r1 r2 : Nat) : Mat :=
  fun r c => if r = r1 then A r2 c else if r = r2 then A r1 c else A r c

/-- `swap(B[maxRow], B[i])`. -/
def swapVec (B : Vec) (r1 r2 : Nat) : Vec :=
  fun r => if r = r1 then B r2 else if r = r2 then B r1 else B r

/-- Forward elimination of the rows listed in `ks` below pivot row `i`
(`CircuitSolver.cpp` lines 57-63): for each row `k`,
`factor = A[k][i]/A[i][i]`, `B[k] -= factor*B[i]`, and
`A[k][j] -= factor*A[i][j]` for the columns `j = i .. n-1`. -/
def elimBelow (i n : Nat) : List Nat → Mat → Vec → Mat × Vec
  | [], A, B => (A, B)
  | k :: ks, A, B =>
      let factor := A k i / A i i
      let B2 : Vec := fun r => if r = k then B r - factor * B i else B r
      let A2 : Mat := fun r c =>
        if r = k ∧ i ≤ c ∧ c < n then A r c - factor * A i c else A r c
      elimBelow i n ks A2 B2

/-- The single row operation of `elimBelow` on the matrix: row `k`
minus `A[k][i]/A[i][i]` times row `i`, on columns `i .. n-1` (a named
spelling of the update performed inside `elimBelow`). -/
def elimRowA (i n k : Nat) (A : Mat) : Mat :=
  fun r c => if r = k ∧ i ≤ c ∧ c < n then A r c - A k i / A i i * A i c else A r c

/-- The single row operation of `elimBelow` on the right-hand side:
`B[k] -= A[k][i]/A[i][i] * B[i]`. -/
def elimRowB (i k : Nat) (A : Mat) (B : Vec) : Vec :=
  fun r => if r = k then B r - A k i / A i i * B i else B r

/-- The forward-elimination loop (`for i = 0 .. n-1`), as structural
recursion on the remaining iteration count `fuel = n - i`.  Each round
swaps the partial-pivot row into place, rejects a sub-`EPSILON` pivot as
singular, and eliminates the rows below. -/
def forwardElim (n : Nat) : Nat → Nat → Mat → Vec → Except SolverErr (Mat × Vec)
  | 0, _, A, B => Except.ok (A, B)
  | fuel + 1, i, A, B =>
      let maxRow := maxRowSel A i n
      let A1 := swapRows A maxRow i
      let B1 := swapVec B maxRow i
      if rabs (A1 i i) < EPSILON then Except.error SolverErr.singularMatrixError
      else
        let AB2 := elimBelow i n (List.range' (i + 1) (n - (i + 1))) A1 B1
        forwardElim n fuel (i + 1) AB2.1 AB2.2

/-- Back substitution (`CircuitSolver.cpp` lines 66-73), as structural
recursion on the number `m` of already-computed trailing entries: step
`m+1` fills index `i = n-(m+1)` with `(B[i] - Σ_{j>i} A[i][j]·x[j]) / A[i][i]`. -/
def backSubstAux (A : Mat) (B : Vec) (n : Nat) : Nat → Vec
  | 0 => fun _ => 0
  | m + 1 =>
      let x := backSubstAux A B n m
      let i := n - (m + 1)
      fun r =>
        if r = i then
          (B i - (List.range' (i + 1) (n - (i + 1))).foldl
              (fun s j => s + A i j * x j) 0) / A i i
        else x r

/-- `gaussianElimination(A, B)` for an `n × n` system: forward
elimination with partial pivoting, then back substitution; returns the
solution as a vector of length `n`, or the singular-matrix error. -/
def gaussianElimination (n : Nat) (A : Mat) (B : Vec) : Except SolverErr (List ℚ) :=
  match forwardElim n n 0 A B with
  | Except.error e => Except.error e
  | Except.ok AB => Except.ok ((List.range n).map (backSubstAux AB.1 AB.2 n n))

/-- `enum ComponentType` of `CircuitSolver.h`. -/
inductive ComponentType where
  | RESISTOR
  | CURRENT_SOURCE
  | VOLTAGE_SOURCE
deriving DecidableEq, Repr

/-- The component data: the virtual hierarchy of `CircuitSolver.h`
flattened to a record tagged with its `ComponentType` (the only
per-variant behaviour is `getType`, modelled by the `ctype` field). -/
structure Component where
  name : String
  nodeA_ID : Nat
  nodeB_ID : Nat
  value : ℚ
  ctype : ComponentType
deriving DecidableEq, Repr

/-- `Resistor::Resistor`: rejects `r <= 0`, then `nA == nB`. -/
def Resistor.make (n : String) (nA nB : Nat) (r : ℚ) : Except ValidationErr Component :=
  if r ≤ 0 then Except.error ValidationErr.nonPositiveValue
  else if nA = nB then Except.error ValidationErr.sameNode
  else Except.ok ⟨n, nA, nB, r, ComponentType.RESISTOR⟩

/-- `CurrentSource::CurrentSource`: rejects `nA == nB`. -/
def CurrentSource.make (n : String) (nA nB : Nat) (i : ℚ) : Except ValidationErr Component :=
  if nA = nB then Except.error ValidationErr.sameNode
  else Except.ok ⟨n, nA, nB, i, ComponentType.CURRENT_SOURCE⟩

/-- `VoltageSource::VoltageSource`: rejects `nA == nB`. -/
def VoltageSource.make (n : String) (nA nB : Nat) (v : ℚ) : Except ValidationErr Component :=
  if nA = nB then Except.error ValidationErr.sameNode
  else Except.ok ⟨n, nA, nB, v, ComponentType.VOLTAGE_SOURCE⟩

/-- `Resistor::getConductance`. -/
def Component.getConductance (c : Component) : ℚ :=
  if c.value = 0 then 0 else 1 / c.value

/-- Insert/overwrite a key in the name → id map. -/
def mapInsert (m : String → Option Nat) (k : String) (v : Nat) : String → Option Nat :=
  fun s => if s = k then some v else m s

/-- Insert/overwrite a key in the id → voltage map. -/
def vmapInsert (m : Nat → Option ℚ) (k : Nat) (v : ℚ) : Nat → Option ℚ :=
  fun i => if i = k then some v else m i

/-- `class Circuit` state: component list, name → id map, id → voltage
map, and the non-ground node counter. -/
structure Circuit where
  components : List Component
  nodeName_to_ID : String → Option Nat
  nodeVoltages : Nat → Option ℚ
  nodeCount : Nat

/-- `Circuit::Circuit`: seeds `"GND" ↦ 0`, `"0" ↦ 0`, and ground voltage
`0 ↦ 0.0`. -/
def Circuit.init : Circuit where
  components := []
  nodeName_to_ID := fun s => if s = "GND" then some 0 else if s = "0" then some 0 else none
  nodeVoltages := fun i => if i = 0 then some 0 else none
  nodeCount := 0

/-- `Circuit::getNodeID`: empty names are rejected; a known name returns
its id unchanged; an unknown name increments `nodeCount` and records the
new mapping. -/
def Circuit.getNodeID (c : Circuit) (nodeName : String) : Except ValidationErr (Nat × Circuit) :=
  if nodeName = "" then Except.error ValidationErr.emptyNodeName
  else
    match c.nodeName_to_ID nodeName with
    | none =>
        Except.ok (c.nodeCount + 1,
          { c with
            nodeCount := c.nodeCount + 1,
            nodeName_to_ID := mapInsert c.nodeName_to_ID nodeName (c.nodeCount + 1) })
    | some id => Except.ok (id, c)

/-- `Circuit::addResistor`: resolve both node names, then construct and
append the resistor.  The returned circuit is the state at the moment an
exception escapes — node resolution that happened before the throw is
kept, exactly as in the C++ object. -/
def Circuit.addResistor (c : Circuit) (name n1 n2 : String) (resistance : ℚ) :
    Circuit × Option ValidationErr :=
  match c.getNodeID n1 with
  | Except.error e => (c, some e)
  | Except.ok (id1, c1) =>
    match c1.getNodeID n2 with
    | Except.error e => (c1, some e)
    | Except.ok (id2, c2) =>
      match Resistor.make name id1 id2 resistance with
      | Except.error e => (c2, some e)
      | Except.ok comp => ({ c2 with components := c2.components ++ [comp] }, none)

/-- `Circuit::addCurrentSource`. -/
def Circuit.addCurrentSource (c : Circuit) (name nFrom nTo : String) (current : ℚ) :
    Circuit × Option ValidationErr :=
  match c.getNodeID nFrom with
  | Except.error e => (c, some e)
  | Except.ok (id1, c1) =>
    match c1.getNodeID nTo with
    | Except.error e => (c1, some e)
    | Except.ok (id2, c2) =>
      match CurrentSource.make name id1 id2 current with
      | Except.error e => (c2, some e)
      | Except.ok comp => ({ c2 with components := c2.components ++ [comp] }, none)

/-- `Circuit::addVoltageSource`. -/
def Circuit.addVoltageSource (c : Circuit) (name nPos nNeg : String) (voltage : ℚ) :
    Circuit × Option ValidationErr :=
  match c.getNodeID nPos with
  | Except.error e => (c, some e)
  | Except.ok (id1, c1) =>
    match c1.getNodeID nNeg with
    | Except.error e => (c1, some e)
    | Except.ok (id2, c2) =>
      match VoltageSource.make name id1 id2 voltage with
      | Except.error e => (c2, some e)
      | Except.ok comp => ({ c2 with components := c2.components ++ [comp] }, none)

/-- `Circuit::clearCircuit`: drop everything, then re-seed only
`"GND" ↦ 0` and the ground voltage (note: unlike the constructor, the
spelling `"0"` is not re-seeded). -/
def Circuit.clearCircuit (_c : Circuit) : Circuit where
  components := []
  nodeName_to_ID := fun s => if s = "GND" then some 0 else none
  nodeVoltages := fun i => if i = 0 then some 0 else none
  nodeCount := 0

/-- One MNA stamp (`CircuitSolver.cpp` lines 104-127) applied to the
running `(A, B, vSourceIndex)` state. -/
def stampComponent (nodeCount : Nat) (st : Mat × Vec × Nat) (comp : Component) :
    Mat × Vec × Nat :=
  match st with
  | (A, B, vSourceIndex) =>
    match comp.ctype with
    | ComponentType.RESISTOR =>
        let g := comp.getConductance
        let u := comp.nodeA_ID
        let v := comp.nodeB_ID
        let A1 : Mat := if u ≠ 0 then
            fun r c => if r = u - 1 ∧ c = u - 1 then A r c + g else A r c
          else A
        let A2 : Mat := if u ≠ 0 ∧ v ≠ 0 then
            fun r c => if r = u - 1 ∧ c = v - 1 then A1 r c - g else A1 r c
          else A1
        let A3 : Mat := if v ≠ 0 then
            fun r c => if r = v - 1 ∧ c = v - 1 then A2 r c + g else A2 r c
          else A2
        let A4 : Mat := if v ≠ 0 ∧ u ≠ 0 then
            fun r c => if r = v - 1 ∧ c = u - 1 then A3 r c - g else A3 r c
          else A3
        (A4, B, vSourceIndex)
    | ComponentType.CURRENT_SOURCE =>
        let u := comp.nodeA_ID
        let v := comp.nodeB_ID
        let B1 : Vec := if u ≠ 0 then
            fun r => if r = u - 1 then B r - comp.value else B r
          else B
        let B2 : Vec := if v ≠ 0 then
            fun r => if r = v - 1 then B1 r + comp.value else B1 r
          else B1
        (A, B2, vSourceIndex)
    | ComponentType.VOLTAGE_SOURCE =>
        let rIdx := nodeCount + vSourceIndex
        let p := comp.nodeA_ID
        let nn := comp.nodeB_ID
        let A1 : Mat := if p ≠ 0 then
            fun r c =>
              if r = rIdx ∧ c = p - 1 then 1
              else if r = p - 1 ∧ c = rIdx then 1
              else A r c
          else A
        let A2 : Mat := if nn ≠ 0 then
            fun r c =>
              if r = rIdx ∧ c = nn - 1 then -1
              else if r = nn - 1 ∧ c = rIdx then -1
              else A1 r c
          else A1
        let B1 : Vec := fun r => if r = rIdx then comp.value else B r
        (A2, B1, vSourceIndex + 1)

/-- The assembly loop of `Circuit::solve`: stamp every component in
order. -/
def assemble (nodeCount : Nat) : List Component → Mat × Vec × Nat → Mat × Vec × Nat
  | [], st => st
  | comp :: rest, st => assemble nodeCount rest (stampComponent nodeCount st comp)

/-- The body of `Circuit::solve` up to and including the linear solve:
empty-circuit check, ground-reference check, MNA assembly, Gaussian
elimination. -/
def Circuit.solveResult (c : Circuit) : Except SolverErr (List ℚ) :=
  if c.nodeCount = 0 then Except.error SolverErr.emptyCircuitError
  else if ¬ c.components.any (fun comp => comp.nodeA_ID == 0 || comp.nodeB_ID == 0) then
    Except.error SolverErr.groundReferenceError
  else
    let vSourceCount :=
      (c.components.filter (fun comp => comp.ctype == ComponentType.VOLTAGE_SOURCE)).length
    let matrixSize := c.nodeCount + vSourceCount
    let st := assemble c.nodeCount c.components ((fun _ _ => 0), (fun _ => 0), 0)
    gaussianElimination matrixSize st.1 st.2.1

/-- `nodeVoltages[i+1] = result[i]` for `i = 0 .. nodeCount-1`
(`CircuitSolver.cpp` line 132). -/
def updateVoltages (m : Nat → Option ℚ) (result : List ℚ) : Nat → (Nat → Option ℚ)
  | 0 => m
  | i + 1 => vmapInsert (updateVoltages m result i) (i + 1) (result.getD i 0)

/-- `Circuit::solve` with its enclosing `try/catch`: on any solver error
the circuit is returned untouched together with the reported error; on
success the node voltages are rewritten from the solution vector. -/
def Circuit.solve (c : Circuit) : Circuit × Option SolverErr :=
  match c.solveResult with
  | Except.error e => (c, some e)
  | Except.ok result =>
      ({ c with nodeVoltages := updateVoltages c.nodeVoltages result c.nodeCount }, none)

/-- The states of a `Circuit` reachable from construction through any
sequence of insertions, clears and solves. -/
inductive Reachable : Circuit → Prop
  | init : Reachable Circuit.init
  | addResistor (c : Circuit) (name n1 n2 : String) (r : ℚ) :
      Reachable c → Reachable (c.addResistor name n1 n2 r).1
  | addCurrentSource (c : Circuit) (name n1 n2 : String) (i : ℚ) :
      Reachable c → Reachable (c.addCurrentSource name n1 n2 i).1
  | addVoltageSource (c : Circuit) (name n1 n2 : String) (v : ℚ) :
      Reachable c → Reachable (c.addVoltageSource name n1 n2 v).1
  | clear (c : Circuit) : Reachable c → Reachable c.clearCircuit
  | solve (c : Circuit) : Reachable c → Reachable c.solve.1

/-- Row `r` of the residual: `Σ_{j<n} A[r][j]·x[j]`. -/
def dotRow (n : Nat) (A : Mat) (r : Nat) (x : Vec) : ℚ :=
  ∑ j ∈ Finset.range n, A r j * x j

/-- `x` solves every row of the `n × n` system `(A, B)`. -/
def SolvesSystem (n : Nat) (A : Mat) (B : Vec) (x : Vec) : Prop :=
  ∀ r, r < n → dotRow n A r x = B r

/-- The voltage-divider scenario of the test plan: `V1` 10 V from `A` to
`GND`, `R1` 10 Ω from `A` to `B`, `R2` 10 Ω from `B` to `GND`. -/
def dividerCircuit : Circuit :=
  (((Circuit.init.addVoltageSource "V1" "A" "GND" 10).1.addResistor "R1" "A" "B" 10).1.addResistor
    "R2" "B" "GND" 10).1

/-- The state `dividerCircuit` reduces to: nodes `A ↦ 1`, `B ↦ 2`, the
three components in insertion order. -/
def dividerExplicit : Circuit :=
  { components :=
      [⟨"V1", 1, 0, 10, ComponentType.VOLTAGE_SOURCE⟩,
       ⟨"R1", 1, 2, 10, ComponentType.RESISTOR⟩,
       ⟨"R2", 2, 0, 10, ComponentType.RESISTOR⟩],
    nodeName_to_ID := fun s =>
      (if s = "B" then some 2 else if s = "A" then some 1
        else if s = "GND" then some 0 else if s = "0" then some 0 else none),
    nodeVoltages := fun i => (if i = 0 then some 0 else none),
    nodeCount := 2 }

/-- A circuit whose single resistor touches no ground node. -/
def noGroundCircuit : Circuit := (Circuit.init.addResistor "R1" "X" "Y" 10).1

/-- The spec's pivoting example matrix `[[0,1],[1,1]]`. -/
def pivotExampleA : Mat := fun r c =>
  if r = 0 ∧ c = 0 then 0
  else if r = 0 ∧ c = 1 then 1
  else if r = 1 ∧ c = 0 then 1
  else if r = 1 ∧ c = 1 then 1
  else 0

/-- The spec's pivoting example right-hand side `[2,3]`. -/
def pivotExampleB : Vec := fun r => if r = 0 then 2 else if r = 1 then 3 else 0

theorem getNodeID_preserves (c : Circuit) (s : String) (i : Nat) (c2 : Circuit)
    (h : c.getNodeID s = Except.ok (i, c2)) :
    c2.components = c.components ∧ c2.nodeVoltages = c.nodeVoltages := by
  unfold Circuit.getNodeID at h
  split at h
  · simp at h
  · split at h
    · simp only [Except.ok.injEq, Prod.mk.injEq] at h
      obtain ⟨-, h2⟩ := h
      subst h2
      exact ⟨rfl, rfl⟩
    · simp only [Except.ok.injEq, Prod.mk.injEq] at h
      obtain ⟨-, h2⟩ := h
      subst h2
      exact ⟨rfl, rfl⟩

theorem addFailurePath (c c2 : Circuit) (n1 n2 : String) (e : ValidationErr)
    (mk : Nat → Nat → Except ValidationErr Component)
    (h : (match c.getNodeID n1 with
          | Except.error e0 => (c, some e0)
          | Except.ok (i1, c1) =>
            match c1.getNodeID n2 with
            | Except.error e0 => (c1, some e0)
            | Except.ok (i2, cc) =>
              match mk i1 i2 with
              | Except.error e0 => (cc, some e0)
              | Except.ok comp =>
                ({ cc with components := cc.components ++ [comp] }, none)) = (c2, some e)) :
    c2.components = c.components ∧ c2.nodeVoltages = c.nodeVoltages := by
  cases hg1 : c.getNodeID n1 with
  | error e1 =>
      simp only [hg1] at h
      rw [Prod.mk.injEq] at h
      obtain ⟨hc, -⟩ := h
      subst hc
      exact ⟨rfl, rfl⟩
  | ok p1 =>
      obtain ⟨i1, c1⟩ := p1
      simp only [hg1] at h
      have hp1 := getNodeID_preserves c n1 i1 c1 hg1
      cases hg2 : c1.getNodeID n2 with
      | error e2 =>
          simp only [hg2] at h
          rw [Prod.mk.injEq] at h
          obtain ⟨hc, -⟩ := h
          subst hc
          exact hp1
      | ok p2 =>
          obtain ⟨i2, cc⟩ := p2
          simp only [hg2] at h
          have hp2 := getNodeID_preserves c1 n2 i2 cc hg2
          cases hm : mk i1 i2 with
          | error e3 =>
              simp only [hm] at h
              rw [Prod.mk.injEq] at h
              obtain ⟨hc, -⟩ := h
              subst hc
              exact ⟨hp2.1.trans hp1.1, hp2.2.trans hp1.2⟩
          | ok comp =>
              simp only [hm] at h
              rw [Prod.mk.injEq] at h
              exact absurd h.2 (by simp)

/-- Claim C10: an insertion that fails validation appends nothing: for each
of `addResistor`, `addCurrentSource`, `addVoltageSource`, a call that
returns a `ValidationErr` leaves the component list exactly as it was,
even though the node registry may already have been extended. -/
theorem insertion_failure_appends_nothing :
    (∀ (c : Circuit) (name n1 n2 : String) (v : ℚ) (c2 : Circuit) (e : ValidationErr),
        c.addResistor name n1 n2 v = (c2, some e) → c2.components = c.components) ∧
    (∀ (c : Circuit) (name n1 n2 : String) (v : ℚ) (c2 : Circuit) (e : ValidationErr),
        c.addCurrentSource name n1 n2 v = (c2, some e) → c2.components = c.components) ∧
    (∀ (c : Circuit) (name n1 n2 : String) (v : ℚ) (c2 : Circuit) (e : ValidationErr),
        c.addVoltageSource name n1 n2 v = (c2, some e) → c2.components = c.components) :=
  ⟨fun c name n1 n2 v c2 e h =>
      (addFailurePath c c2 n1 n2 e (fun i1 i2 => Resistor.make name i1 i2 v) h).1,
   fun c name n1 n2 v c2 e h =>
      (addFailurePath c c2 n1 n2 e (fun i1 i2 => CurrentSource.make name i1 i2 v) h).1,
   fun c name n1 n2 v c2 e h =>
      (addFailurePath c c2 n1 n2 e (fun i1 i2 => VoltageSource.make name i1 i2 v) h).1⟩

/-- Witness for C10: a resistor with equal endpoints fails and the
component list is untouched. -/
theorem insertion_failure_appends_nothing_witness :
    Circuit.init.addResistor "R1" "X" "X" 5 =
      ((Circuit.init.addResistor "R1" "X" "X" 5).1, some ValidationErr.sameNode) ∧
    (Circuit.init.addResistor "R1" "X" "X" 5).1.components = Circuit.init.components :=
  ⟨rfl,
   insertion_failure_appends_nothing.1 Circuit.init "R1" "X" "X" 5
     (Circuit.init.addResistor "R1" "X" "X" 5).1 ValidationErr.sameNode rfl⟩

/-- Claim C3, counterexample: `addResistor` with a negative resistance
fails with a `ValidationErr`, yet the node registry and the counter are
mutated — the names resolved before validation stay registered, so the
store is not left entirely unchanged. -/
theorem validation_error_mutates_registry :
    (Circuit.init.addResistor "R1" "X" "Y" (-5)).2 = some ValidationErr.nonPositiveValue ∧
    Circuit.init.nodeName_to_ID "X" = none ∧
    (Circuit.init.addResistor "R1" "X" "Y" (-5)).1.nodeName_to_ID "X" = some 1 ∧
    Circuit.init.nodeCount = 0 ∧
    (Circuit.init.addResistor "R1" "X" "Y" (-5)).1.nodeCount = 2 :=
  ⟨rfl, rfl, rfl, rfl, rfl⟩

/-- Claim C3 (amended): an insertion that fails with a `ValidationErr`
leaves the component list and the solution map exactly as they were; the
node registry and the non-ground counter, however, may retain node names
that were resolved before validation failed. -/
theorem insertion_failure_leaves_components_and_voltages :
    (∀ (c : Circuit) (name n1 n2 : String) (v : ℚ) (c2 : Circuit) (e : ValidationErr),
        c.addResistor name n1 n2 v = (c2, some e) →
          c2.components = c.components ∧ c2.nodeVoltages = c.nodeVoltages) ∧
    (∀ (c : Circuit) (name n1 n2 : String) (v : ℚ) (c2 : Circuit) (e : ValidationErr),
        c.addCurrentSource name n1 n2 v = (c2, some e) →
          c2.components = c.components ∧ c2.nodeVoltages = c.nodeVoltages) ∧
    (∀ (c : Circuit) (name n1 n2 : String) (v : ℚ) (c2 : Circuit) (e : ValidationErr),
        c.addVoltageSource name n1 n2 v = (c2, some e) →
          c2.components = c.components ∧ c2.nodeVoltages = c.nodeVoltages) :=
  ⟨fun c name n1 n2 v c2 e h =>
      addFailurePath c c2 n1 n2 e (fun i1 i2 => Resistor.make name i1 i2 v) h,
   fun c name n1 n2 v c2 e h =>
      addFailurePath c c2 n1 n2 e (fun i1 i2 => CurrentSource.make name i1 i2 v) h,
   fun c name n1 n2 v c2 e h =>
      addFailurePath c c2 n1 n2 e (fun i1 i2 => VoltageSource.make name i1 i2 v) h⟩

/-- Witness for the amended C3: a current source with equal endpoints
fails and leaves component list and voltages untouched. -/
theorem insertion_failure_leaves_components_and_voltages_witness :
    Circuit.init.addCurrentSource "I1" "X" "X" 2 =
      ((Circuit.init.addCurrentSource "I1" "X" "X" 2).1, some ValidationErr.sameNode) ∧
    (Circuit.init.addCurrentSource "I1" "X" "X" 2).1.components = Circuit.init.components ∧
    (Circuit.init.addCurrentSource "I1" "X" "X" 2).1.nodeVoltages = Circuit.init.nodeVoltages :=
  ⟨rfl,
   (insertion_failure_leaves_components_and_voltages.2.1 Circuit.init "I1" "X" "X" 2
      (Circuit.init.addCurrentSource "I1" "X" "X" 2).1 ValidationErr.sameNode rfl).1,
   (insertion_failure_leaves_components_and_voltages.2.1 Circuit.init "I1" "X" "X" 2
      (Circuit.init.addCurrentSource "I1" "X" "X" 2).1 ValidationErr.sameNode rfl).2⟩

/-- Claim C1, counterexample: immediately after construction the spelling
`"gnd"` does not resolve to 0 — it is assigned the fresh identifier 1 and
the counter is incremented; likewise `"0"` after `clearCircuit`. -/
theorem ground_alias_counterexample :
    (Circuit.init.getNodeID "gnd").map (fun p => (p.1, p.2.nodeCount)) = Except.ok (1, 1) ∧
    (Circuit.init.clearCircuit.getNodeID "0").map (fun p => (p.1, p.2.nodeCount)) =
      Except.ok (1, 1) :=
  ⟨rfl, rfl⟩

/-- Claim C1 (amended): immediately after construction, resolving `"0"`
or `"GND"` (in any order) returns identifier 0 without changing the
circuit at all; immediately after `clearCircuit`, resolving `"GND"`
returns 0 without change.  The spelling `"gnd"` is not seeded by the
constructor, and `"0"` is not re-seeded by `clearCircuit`. -/
theorem ground_alias_amended :
    Circuit.init.getNodeID "0" = Except.ok (0, Circuit.init) ∧
    Circuit.init.getNodeID "GND" = Except.ok (0, Circuit.init) ∧
    ∀ c : Circuit, c.clearCircuit.getNodeID "GND" = Except.ok (0, c.clearCircuit) :=
  ⟨rfl, rfl, fun _ => rfl⟩

/-- Claim C7: whenever `solve` reports an error, the circuit — including
the voltage map from any previous successful solve — is returned in
exactly its prior state. -/
theorem solve_failure_preserves (c c2 : Circuit) (e : SolverErr)
    (h : c.solve = (c2, some e)) : c2 = c := by
  unfold Circuit.solve at h
  cases hs : c.solveResult with
  | error e2 =>
      rw [hs] at h
      rw [Prod.mk.injEq] at h
      exact h.1.symm
  | ok res =>
      rw [hs] at h
      rw [Prod.mk.injEq] at h
      exact absurd h.2 (by simp)

/-- Witness for C7: solving the empty circuit fails and preserves the
state. -/
theorem solve_failure_preserves_witness :
    Circuit.init.solve = (Circuit.init, some SolverErr.emptyCircuitError) ∧
    Circuit.init = Circuit.init :=
  ⟨rfl, solve_failure_preserves Circuit.init Circuit.init SolverErr.emptyCircuitError rfl⟩

/-- Claim C9: node identifiers are assigned in first-seen order starting
at 1: a known name resolves to its recorded identifier with the circuit
unchanged, an unknown non-empty name is assigned `nodeCount + 1` and
recorded, and the concrete sequence `"A"`, `"B"`, `"A"` on a fresh
circuit yields 1, 2, 1. -/
theorem getNodeID_assignment :
    (∀ (c : Circuit) (s : String) (i : Nat), s ≠ "" → c.nodeName_to_ID s = some i →
        c.getNodeID s = Except.ok (i, c)) ∧
    (∀ (c : Circuit) (s : String), s ≠ "" → c.nodeName_to_ID s = none →
        c.getNodeID s = Except.ok (c.nodeCount + 1,
          { c with
            nodeCount := c.nodeCount + 1,
            nodeName_to_ID := mapInsert c.nodeName_to_ID s (c.nodeCount + 1) })) ∧
    (Circuit.init.getNodeID "A").map Prod.fst = Except.ok 1 ∧
    ((Circuit.init.getNodeID "A").bind (fun p => p.2.getNodeID "B")).map Prod.fst =
      Except.ok 2 ∧
    (((Circuit.init.getNodeID "A").bind (fun p => p.2.getNodeID "B")).bind
        (fun p => p.2.getNodeID "A")).map Prod.fst = Except.ok 1 := by
  refine ⟨?_, ?_, rfl, rfl, rfl⟩
  · intro c s i hs hsome
    unfold Circuit.getNodeID
    rw [if_neg hs, hsome]
  · intro c s hs hnone
    unfold Circuit.getNodeID
    rw [if_neg hs, hnone]

/-- Witness for C9: the seeded name `"GND"` resolves to its recorded
identifier 0 without change. -/
theorem getNodeID_assignment_witness :
    Circuit.init.getNodeID "GND" = Except.ok (0, Circuit.init) :=
  getNodeID_assignment.1 Circuit.init "GND" 0 (by decide) rfl

/-- Claim C6: on a circuit with registered nodes but no component
touching ground (identifier 0), `solve` fails with the ground-reference
error and returns the circuit untouched — no assembly result is ever
recorded. -/
theorem solve_no_ground (c : Circuit) (h1 : c.nodeCount ≠ 0)
    (h2 : ∀ comp ∈ c.components, comp.nodeA_ID ≠ 0 ∧ comp.nodeB_ID ≠ 0) :
    c.solve = (c, some SolverErr.groundReferenceError) := by
  have hany : ¬ (c.components.any fun comp =>
      comp.nodeA_ID == 0 || comp.nodeB_ID == 0) = true := by
    intro hx
    rw [List.any_eq_true] at hx
    obtain ⟨comp, hmem, hcomp⟩ := hx
    rw [Bool.or_eq_true, beq_iff_eq, beq_iff_eq] at hcomp
    rcases hcomp with h0 | h0
    · exact (h2 comp hmem).1 h0
    · exact (h2 comp hmem).2 h0
  have hres : c.solveResult = Except.error SolverErr.groundReferenceError := by
    unfold Circuit.solveResult
    rw [if_neg h1, if_pos hany]
  unfold Circuit.solve
  rw [hres]

/-- Witness for C6: a lone resistor between two non-ground nodes makes
`solve` fail with the ground-reference error. -/
theorem solve_no_ground_witness :
    noGroundCircuit.nodeCount ≠ 0 ∧
    noGroundCircuit.solve = (noGroundCircuit, some SolverErr.groundReferenceError) :=
  ⟨by decide, solve_no_ground noGroundCircuit (by decide) (by decide)⟩

theorem updateVoltages_zero (m : Nat → Option ℚ) (result : List ℚ) :
    ∀ k, updateVoltages m result k 0 = m 0 := by
  intro k
  induction k with
  | zero => rfl
  | succ i ih =>
      have hstep : updateVoltages m result (i + 1) 0 = updateVoltages m result i 0 := by
        show vmapInsert (updateVoltages m result i) (i + 1) (result.getD i 0) 0 =
          updateVoltages m result i 0
        unfold vmapInsert
        rw [if_neg (by omega)]
      rw [hstep]
      exact ih

theorem addResistor_voltages (c : Circuit) (name n1 n2 : String) (v : ℚ) :
    (c.addResistor name n1 n2 v).1.nodeVoltages = c.nodeVoltages := by
  unfold Circuit.addResistor
  split
  · rfl
  · rename_i i1 c1 hg1
    have hp1 := (getNodeID_preserves c n1 i1 c1 hg1).2
    split
    · exact hp1
    · rename_i i2 cc hg2
      have hp2 := (getNodeID_preserves c1 n2 i2 cc hg2).2
      split
      · exact hp2.trans hp1
      · exact hp2.trans hp1

theorem addCurrentSource_voltages (c : Circuit) (name n1 n2 : String) (v : ℚ) :
    (c.addCurrentSource name n1 n2 v).1.nodeVoltages = c.nodeVoltages := by
  unfold Circuit.addCurrentSource
  split
  · rfl
  · rename_i i1 c1 hg1
    have hp1 := (getNodeID_preserves c n1 i1 c1 hg1).2
    split
    · exact hp1
    · rename_i i2 cc hg2
      have hp2 := (getNodeID_preserves c1 n2 i2 cc hg2).2
      split
      · exact hp2.trans hp1
      · exact hp2.trans hp1

theorem addVoltageSource_voltages (c : Circuit) (name n1 n2 : String) (v : ℚ) :
    (c.addVoltageSource name n1 n2 v).1.nodeVoltages = c.nodeVoltages := by
  unfold Circuit.addVoltageSource
  split
  · rfl
  · rename_i i1 c1 hg1
    have hp1 := (getNodeID_preserves c n1 i1 c1 hg1).2
    split
    · exact hp1
    · rename_i i2 cc hg2
      have hp2 := (getNodeID_preserves c1 n2 i2 cc hg2).2
      split
      · exact hp2.trans hp1
      · exact hp2.trans hp1

/-- Claim C8: in every reachable circuit state the solution map sends
ground (identifier 0) to voltage 0, and no operation ever overwrites
that entry: construction and `clearCircuit` seed it, insertions never
touch the map, and a successful `solve` writes only identifiers `≥ 1`. -/
theorem ground_voltage_invariant (c : Circuit) (h : Reachable c) :
    c.nodeVoltages 0 = some 0 := by
  induction h with
  | init => rfl
  | addResistor c0 name n1 n2 r _ ih =>
      rw [addResistor_voltages]
      exact ih
  | addCurrentSource c0 name n1 n2 i _ ih =>
      rw [addCurrentSource_voltages]
      exact ih
  | addVoltageSource c0 name n1 n2 v _ ih =>
      rw [addVoltageSource_voltages]
      exact ih
  | clear c0 _ => rfl
  | solve c0 _ ih =>
      unfold Circuit.solve
      cases hs : c0.solveResult with
      | error e => exact ih
      | ok res =>
          show updateVoltages c0.nodeVoltages res c0.nodeCount 0 = some 0
          rw [updateVoltages_zero]
          exact ih

/-- Witness for C8: the invariant holds of the freshly constructed
circuit. -/
theorem ground_voltage_invariant_witness :
    Circuit.init.nodeVoltages 0 = some 0 :=
  ground_voltage_invariant Circuit.init Reachable.init

theorem stampComponent_vIdx (N : Nat) (A : Mat) (B : Vec) (vIdx : Nat) (comp : Component)
    (hct : comp.ctype ≠ ComponentType.VOLTAGE_SOURCE) :
    (stampComponent N (A, B, vIdx) comp).2.2 = vIdx := by
  cases h : comp.ctype with
  | RESISTOR => simp [stampComponent, h]
  | CURRENT_SOURCE => simp [stampComponent, h]
  | VOLTAGE_SOURCE => exact absurd h hct

set_option maxHeartbeats 8000000 in
theorem stampComponent_preserve (N : Nat) (A : Mat) (B : Vec) (vIdx : Nat) (comp : Component)
    (hA : comp.nodeA_ID ≤ N) (hB : comp.nodeB_ID ≤ N) (t : Nat) (ht1 : N ≤ t)
    (ht2 : t < N + vIdx) :
    vIdx ≤ (stampComponent N (A, B, vIdx) comp).2.2 ∧
    (∀ a, a < N → (stampComponent N (A, B, vIdx) comp).1 a t = A a t) ∧
    (∀ a, a < N → (stampComponent N (A, B, vIdx) comp).1 t a = A t a) ∧
    (stampComponent N (A, B, vIdx) comp).2.1 t = B t := by
  obtain ⟨nm, na, nb, val, ct⟩ := comp
  cases ct with
  | RESISTOR =>
      refine ⟨le_refl _, ?_, ?_, rfl⟩
      · intro a ha
        simp only [stampComponent]
        try simp only [ite_apply]
        split_ifs <;> first | rfl | omega | (simp_all <;> omega)
      · intro a ha
        simp only [stampComponent]
        try simp only [ite_apply]
        split_ifs <;> first | rfl | omega | (simp_all <;> omega)
  | CURRENT_SOURCE =>
      refine ⟨le_refl _, fun a _ => rfl, fun a _ => rfl, ?_⟩
      simp only [stampComponent]
      try simp only [ite_apply]
      split_ifs <;> first | rfl | omega | (simp_all <;> omega)
  | VOLTAGE_SOURCE =>
      refine ⟨Nat.le_succ vIdx, ?_, ?_, ?_⟩
      · intro a ha
        simp only [stampComponent]
        try simp only [ite_apply]
        split_ifs <;> first | rfl | omega | (simp_all <;> omega)
      · intro a ha
        simp only [stampComponent]
        try simp only [ite_apply]
        split_ifs <;> first | rfl | omega | (simp_all <;> omega)
      · simp only [stampComponent]
        try simp only [ite_apply]
        split_ifs <;> first | rfl | omega | (simp_all <;> omega)

theorem assemble_preserve (N : Nat) (comps : List Component) (t : Nat) (ht1 : N ≤ t)
    (hids : ∀ comp ∈ comps, comp.nodeA_ID ≤ N ∧ comp.nodeB_ID ≤ N) :
    ∀ (A : Mat) (B : Vec) (vIdx : Nat), t < N + vIdx →
      vIdx ≤ (assemble N comps (A, B, vIdx)).2.2 ∧
      (∀ a, a < N → (assemble N comps (A, B, vIdx)).1 a t = A a t) ∧
      (∀ a, a < N → (assemble N comps (A, B, vIdx)).1 t a = A t a) ∧
      (assemble N comps (A, B, vIdx)).2.1 t = B t := by
  induction comps with
  | nil =>
      intro A B vIdx ht2
      exact ⟨le_refl _, fun a _ => rfl, fun a _ => rfl, rfl⟩
  | cons comp rest ih =>
      intro A B vIdx ht2
      have hc := hids comp (List.mem_cons_self comp rest)
      have hrest : ∀ x ∈ rest, x.nodeA_ID ≤ N ∧ x.nodeB_ID ≤ N :=
        fun x hx => hids x (List.mem_cons_of_mem comp hx)
      have hst := stampComponent_preserve N A B vIdx comp hc.1 hc.2 t ht1 ht2
      have ihs := (ih hrest) (stampComponent N (A, B, vIdx) comp).1
        (stampComponent N (A, B, vIdx) comp).2.1
        (stampComponent N (A, B, vIdx) comp).2.2 (by omega)
      refine ⟨le_trans hst.1 ihs.1, ?_, ?_, ?_⟩
      · intro a ha
        exact (ihs.2.1 a ha).trans (hst.2.1 a ha)
      · intro a ha
        exact (ihs.2.2.1 a ha).trans (hst.2.2.1 a ha)
      · exact ihs.2.2.2.trans hst.2.2.2

theorem stampComponent_vsource_vIdx (N : Nat) (A : Mat) (B : Vec) (vIdx : Nat)
    (comp : Component) (hct : comp.ctype = ComponentType.VOLTAGE_SOURCE) :
    (stampComponent N (A, B, vIdx) comp).2.2 = vIdx + 1 := by
  obtain ⟨nm, na, nb, val, ct⟩ := comp
  subst hct
  rfl

set_option maxHeartbeats 8000000 in
theorem stampComponent_vsource (N : Nat) (A : Mat) (B : Vec) (vIdx : Nat) (comp : Component)
    (hct : comp.ctype = ComponentType.VOLTAGE_SOURCE) (hne : comp.nodeA_ID ≠ comp.nodeB_ID)
    (hA : comp.nodeA_ID ≤ N) (hB : comp.nodeB_ID ≤ N) :
    (stampComponent N (A, B, vIdx) comp).2.2 = vIdx + 1 ∧
    (comp.nodeA_ID ≠ 0 →
        (stampComponent N (A, B, vIdx) comp).1 (comp.nodeA_ID - 1) (N + vIdx) = 1 ∧
        (stampComponent N (A, B, vIdx) comp).1 (N + vIdx) (comp.nodeA_ID - 1) = 1) ∧
    (comp.nodeB_ID ≠ 0 →
        (stampComponent N (A, B, vIdx) comp).1 (comp.nodeB_ID - 1) (N + vIdx) = -1 ∧
        (stampComponent N (A, B, vIdx) comp).1 (N + vIdx) (comp.nodeB_ID - 1) = -1) ∧
    (stampComponent N (A, B, vIdx) comp).2.1 (N + vIdx) = comp.value := by
  obtain ⟨nm, na, nb, val, ct⟩ := comp
  subst hct
  refine ⟨rfl, fun hp => ⟨?_, ?_⟩, fun hn => ⟨?_, ?_⟩, ?_⟩
  · simp only [stampComponent]
    try simp only [ite_apply]
    split_ifs <;> first | rfl | omega | (simp_all <;> omega)
  · simp only [stampComponent]
    try simp only [ite_apply]
    split_ifs <;> first | rfl | omega | (simp_all <;> omega)
  · simp only [stampComponent]
    try simp only [ite_apply]
    split_ifs <;> first | rfl | omega | (simp_all <;> omega)
  · simp only [stampComponent]
    try simp only [ite_apply]
    split_ifs <;> first | rfl | omega | (simp_all <;> omega)
  · simp only [stampComponent]
    try simp only [ite_apply]
    split_ifs <;> first | rfl | omega | (simp_all <;> omega)

theorem assemble_vsource_entries (N : Nat) (comps : List Component) (k : Nat) (vs : Component)
    (A : Mat) (B : Vec) (vIdx : Nat)
    (hids : ∀ comp ∈ comps, comp.nodeA_ID ≤ N ∧ comp.nodeB_ID ≤ N)
    (hvs : (comps.filter (fun comp => comp.ctype == ComponentType.VOLTAGE_SOURCE))[k]? = some vs)
    (hne : vs.nodeA_ID ≠ vs.nodeB_ID) :
    (vs.nodeA_ID ≠ 0 →
        (assemble N comps (A, B, vIdx)).1 (vs.nodeA_ID - 1) (N + vIdx + k) = 1 ∧
        (assemble N comps (A, B, vIdx)).1 (N + vIdx + k) (vs.nodeA_ID - 1) = 1) ∧
    (vs.nodeB_ID ≠ 0 →
        (assemble N comps (A, B, vIdx)).1 (vs.nodeB_ID - 1) (N + vIdx + k) = -1 ∧
        (assemble N comps (A, B, vIdx)).1 (N + vIdx + k) (vs.nodeB_ID - 1) = -1) ∧
    (assemble N comps (A, B, vIdx)).2.1 (N + vIdx + k) = vs.value := by
  induction comps generalizing k A B vIdx with
  | nil => simp at hvs
  | cons comp rest ih =>
      have hc := hids comp (List.mem_cons_self comp rest)
      have hrest : ∀ x ∈ rest, x.nodeA_ID ≤ N ∧ x.nodeB_ID ≤ N :=
        fun x hx => hids x (List.mem_cons_of_mem comp hx)
      by_cases hct : comp.ctype = ComponentType.VOLTAGE_SOURCE
      · rw [List.filter_cons_of_pos (by simp [hct])] at hvs
        cases k with
        | zero =>
            rw [List.getElem?_cons_zero, Option.some.injEq] at hvs
            subst hvs
            have hsv := stampComponent_vsource N A B vIdx comp hct hne hc.1 hc.2
            have hpres := assemble_preserve N rest (N + vIdx) (by omega) hrest
              (stampComponent N (A, B, vIdx) comp).1
              (stampComponent N (A, B, vIdx) comp).2.1
              (stampComponent N (A, B, vIdx) comp).2.2 (by rw [hsv.1]; omega)
            refine ⟨fun hp => ⟨?_, ?_⟩, fun hn => ⟨?_, ?_⟩, ?_⟩
            · show (assemble N rest (stampComponent N (A, B, vIdx) comp)).1
                (comp.nodeA_ID - 1) (N + vIdx + 0) = 1
              rw [Nat.add_zero]
              rw [hpres.2.1 (comp.nodeA_ID - 1) (by omega)]
              exact ((hsv.2.1) hp).1
            · show (assemble N rest (stampComponent N (A, B, vIdx) comp)).1
                (N + vIdx + 0) (comp.nodeA_ID - 1) = 1
              rw [Nat.add_zero]
              rw [hpres.2.2.1 (comp.nodeA_ID - 1) (by omega)]
              exact ((hsv.2.1) hp).2
            · show (assemble N rest (stampComponent N (A, B, vIdx) comp)).1
                (comp.nodeB_ID - 1) (N + vIdx + 0) = -1
              rw [Nat.add_zero]
              rw [hpres.2.1 (comp.nodeB_ID - 1) (by omega)]
              exact ((hsv.2.2.1) hn).1
            · show (assemble N rest (stampComponent N (A, B, vIdx) comp)).1
                (N + vIdx + 0) (comp.nodeB_ID - 1) = -1
              rw [Nat.add_zero]
              rw [hpres.2.2.1 (comp.nodeB_ID - 1) (by omega)]
              exact ((hsv.2.2.1) hn).2
            · show (assemble N rest (stampComponent N (A, B, vIdx) comp)).2.1
                (N + vIdx + 0) = comp.value
              rw [Nat.add_zero]
              rw [hpres.2.2.2]
              exact hsv.2.2.2
        | succ j =>
            rw [List.getElem?_cons_succ] at hvs
            have hsv1 : (stampComponent N (A, B, vIdx) comp).2.2 = vIdx + 1 :=
              stampComponent_vsource_vIdx N A B vIdx comp hct
            have hS : stampComponent N (A, B, vIdx) comp
                = ((stampComponent N (A, B, vIdx) comp).1,
                   (stampComponent N (A, B, vIdx) comp).2.1, vIdx + 1) :=
              congrArg (fun z => ((stampComponent N (A, B, vIdx) comp).1,
                (stampComponent N (A, B, vIdx) comp).2.1, z)) hsv1
            simp only [assemble]
            rw [hS]
            have harith : N + vIdx + (j + 1) = N + (vIdx + 1) + j := by omega
            rw [harith]
            exact ih j (stampComponent N (A, B, vIdx) comp).1
              (stampComponent N (A, B, vIdx) comp).2.1 (vIdx + 1) hrest hvs
      · rw [List.filter_cons_of_neg (by simp [hct])] at hvs
        have hv1 : (stampComponent N (A, B, vIdx) comp).2.2 = vIdx :=
          stampComponent_vIdx N A B vIdx comp hct
        have hS : stampComponent N (A, B, vIdx) comp
            = ((stampComponent N (A, B, vIdx) comp).1,
               (stampComponent N (A, B, vIdx) comp).2.1, vIdx) :=
          congrArg (fun z => ((stampComponent N (A, B, vIdx) comp).1,
            (stampComponent N (A, B, vIdx) comp).2.1, z)) hv1
        simp only [assemble]
        rw [hS]
        exact ih k (stampComponent N (A, B, vIdx) comp).1
          (stampComponent N (A, B, vIdx) comp).2.1 vIdx hrest hvs

/-- Claim C5: during assembly the k-th voltage source (0-indexed among
voltage sources, in order of appearance) between positive node `p` and
negative node `n` with value `v` stamps, at its auxiliary row/column
`r = nodeCount + k`: `A[p-1][r] = A[r][p-1] = 1` when `p` is not ground,
`A[n-1][r] = A[r][n-1] = -1` when `n` is not ground, and `B[r] = v`. -/
theorem assemble_voltageSource_stamp (comps : List Component) (N : Nat) (A0 : Mat) (B0 : Vec)
    (k : Nat) (vs : Component)
    (hids : ∀ comp ∈ comps, comp.nodeA_ID ≤ N ∧ comp.nodeB_ID ≤ N)
    (hvs : (comps.filter (fun comp => comp.ctype == ComponentType.VOLTAGE_SOURCE))[k]? = some vs)
    (hne : vs.nodeA_ID ≠ vs.nodeB_ID) :
    (vs.nodeA_ID ≠ 0 →
        (assemble N comps (A0, B0, 0)).1 (vs.nodeA_ID - 1) (N + k) = 1 ∧
        (assemble N comps (A0, B0, 0)).1 (N + k) (vs.nodeA_ID - 1) = 1) ∧
    (vs.nodeB_ID ≠ 0 →
        (assemble N comps (A0, B0, 0)).1 (vs.nodeB_ID - 1) (N + k) = -1 ∧
        (assemble N comps (A0, B0, 0)).1 (N + k) (vs.nodeB_ID - 1) = -1) ∧
    (assemble N comps (A0, B0, 0)).2.1 (N + k) = vs.value := by
  have h := assemble_vsource_entries N comps k vs A0 B0 0 hids hvs hne
  simpa using h

theorem EPSILON_pos : 0 < EPSILON := by norm_num [EPSILON]

theorem pivot_ne_zero {x : ℚ} (h : ¬ rabs x < EPSILON) : x ≠ 0 := by
  intro h0
  subst h0
  exact h (by norm_num [rabs, EPSILON])

theorem maxRowAux_mem (A : Mat) (i : Nat) :
    ∀ (ks : List Nat) (best : Nat × ℚ),
      (maxRowAux A i ks best).1 = best.1 ∨ (maxRowAux A i ks best).1 ∈ ks := by
  intro ks
  induction ks with
  | nil => intro best; exact Or.inl rfl
  | cons k ks ih =>
      intro best
      unfold maxRowAux
      split_ifs
      · rcases ih (k, rabs (A k i)) with h | h
        · exact Or.inr (h ▸ List.mem_cons_self k ks)
        · exact Or.inr (List.mem_cons_of_mem k h)
      · rcases ih best with h | h
        · exact Or.inl h
        · exact Or.inr (List.mem_cons_of_mem k h)

theorem maxRowSel_bounds (A : Mat) {i n : Nat} (h : i < n) :
    i ≤ maxRowSel A i n ∧ maxRowSel A i n < n := by
  unfold maxRowSel
  rcases maxRowAux_mem A i (List.range' (i + 1) (n - (i + 1))) (i, rabs (A i i)) with hm | hm
  · rw [hm]
    exact ⟨le_refl i, h⟩
  · rw [List.mem_range'_1] at hm
    exact ⟨by omega, by omega⟩

theorem dotRow_swap (n : Nat) (A : Mat) (r1 r2 r : Nat) (x : Vec) :
    dotRow n (swapRows A r1 r2) r x =
      dotRow n A (if r = r1 then r2 else if r = r2 then r1 else r) x := by
  by_cases h1 : r = r1
  · simp [dotRow, swapRows, h1]
  · by_cases h2 : r = r2
    · simp only [dotRow, swapRows, if_neg h1, h2, if_pos rfl]
      split_ifs with h3
      · rw [h3]
      · rfl
    · simp only [dotRow, swapRows, if_neg h1, if_neg h2]

theorem swapVec_eq (B : Vec) (r1 r2 r : Nat) :
    swapVec B r1 r2 r = B (if r = r1 then r2 else if r = r2 then r1 else r) := by
  unfold swapVec
  split_ifs <;> rfl

theorem swapRows_invol (A : Mat) (r1 r2 : Nat) :
    swapRows (swapRows A r1 r2) r1 r2 = A := by
  funext r c
  unfold swapRows
  split_ifs <;> simp_all

theorem swapVec_invol (B : Vec) (r1 r2 : Nat) :
    swapVec (swapVec B r1 r2) r1 r2 = B := by
  funext r
  unfold swapVec
  split_ifs <;> simp_all

theorem solves_swap (n : Nat) (A : Mat) (B : Vec) (r1 r2 : Nat)
    (h1 : r1 < n) (h2 : r2 < n) (x : Vec) (hs : SolvesSystem n A B x) :
    SolvesSystem n (swapRows A r1 r2) (swapVec B r1 r2) x := by
  intro r hr
  rw [dotRow_swap, swapVec_eq]
  apply hs
  split_ifs
  · exact h2
  · exact h1
  · exact hr

theorem solves_swap_iff (n : Nat) (A : Mat) (B : Vec) (r1 r2 : Nat)
    (h1 : r1 < n) (h2 : r2 < n) (x : Vec) :
    SolvesSystem n (swapRows A r1 r2) (swapVec B r1 r2) x ↔ SolvesSystem n A B x := by
  constructor
  · intro hs
    have h3 := solves_swap n (swapRows A r1 r2) (swapVec B r1 r2) r1 r2 h1 h2 x hs
    rwa [swapRows_invol, swapVec_invol] at h3
  · exact solves_swap n A B r1 r2 h1 h2 x

theorem elimRowA_ne (i n k : Nat) (A : Mat) (r c : Nat) (h : r ≠ k) :
    elimRowA i n k A r c = A r c := by
  unfold elimRowA
  rw [if_neg (by tauto)]

theorem elimRowA_lt (i n k : Nat) (A : Mat) (r c : Nat) (h : c < i) :
    elimRowA i n k A r c = A r c := by
  unfold elimRowA
  rw [if_neg (by intro hcon; omega)]

theorem elimRowB_ne (i k : Nat) (A : Mat) (B : Vec) (r : Nat) (h : r ≠ k) :
    elimRowB i k A B r = B r := by
  unfold elimRowB
  rw [if_neg h]

theorem elimRowB_self (i k : Nat) (A : Mat) (B : Vec) :
    elimRowB i k A B k = B k - A k i / A i i * B i := by
  unfold elimRowB
  rw [if_pos rfl]

theorem elimRowA_zeroes_pivot (i n k : Nat) (A : Mat) (hin : i < n) (hAii : A i i ≠ 0) :
    elimRowA i n k A k i = 0 := by
  unfold elimRowA
  rw [if_pos ⟨rfl, le_refl i, hin⟩, div_mul_cancel₀ _ hAii]
  ring

theorem elimRowA_dotRow (n i k : Nat) (A : Mat) (x : Vec)
    (hzi : ∀ c, c < i → A i c = 0) :
    dotRow n (elimRowA i n k A) k x
      = dotRow n A k x - A k i / A i i * dotRow n A i x := by
  unfold dotRow
  have hcongr : ∀ j ∈ Finset.range n,
      elimRowA i n k A k j * x j = A k j * x j - A k i / A i i * (A i j * x j) := by
    intro j hj
    rw [Finset.mem_range] at hj
    by_cases hij : i ≤ j
    · show (if k = k ∧ i ≤ j ∧ j < n then A k j - A k i / A i i * A i j else A k j) * x j = _
      rw [if_pos ⟨rfl, hij, hj⟩]
      ring
    · show (if k = k ∧ i ≤ j ∧ j < n then A k j - A k i / A i i * A i j else A k j) * x j = _
      rw [if_neg (by tauto), hzi j (by omega)]
      ring
  rw [Finset.sum_congr rfl hcongr, Finset.sum_sub_distrib, ← Finset.mul_sum]

theorem elimRowA_dotRow_other (n i k r : Nat) (A : Mat) (x : Vec) (hrk : r ≠ k) :
    dotRow n (elimRowA i n k A) r x = dotRow n A r x := by
  unfold dotRow
  exact Finset.sum_congr rfl (fun j _ => by rw [elimRowA_ne i n k A r j hrk])

theorem elimRow_solves_iff (n i k : Nat) (A : Mat) (B : Vec) (x : Vec)
    (hzi : ∀ c, c < i → A i c = 0) (hi : i < n) (hk : k < n) (hki : k ≠ i) :
    SolvesSystem n (elimRowA i n k A) (elimRowB i k A B) x ↔ SolvesSystem n A B x := by
  constructor
  · intro hs r hr
    by_cases hrk : r = k
    · subst hrk
      have hrowk := hs r hr
      rw [elimRowA_dotRow n i r A x hzi, elimRowB_self] at hrowk
      have hrowi := hs i hi
      rw [elimRowA_dotRow_other n i r i A x (Ne.symm hki),
        elimRowB_ne i r A B i (Ne.symm hki)] at hrowi
      calc dotRow n A r x
          = dotRow n A r x - A r i / A i i * dotRow n A i x
            + A r i / A i i * dotRow n A i x := by ring
        _ = B r - A r i / A i i * B i + A r i / A i i * B i := by rw [hrowk, hrowi]
        _ = B r := by ring
    · have hrow := hs r hr
      rw [elimRowA_dotRow_other n i k r A x hrk, elimRowB_ne i k A B r hrk] at hrow
      exact hrow
  · intro hs r hr
    by_cases hrk : r = k
    · subst hrk
      rw [elimRowA_dotRow n i r A x hzi, elimRowB_self, hs r hr, hs i hi]
    · rw [elimRowA_dotRow_other n i k r A x hrk, elimRowB_ne i k A B r hrk]
      exact hs r hr

theorem elimBelow_cons (i n k : Nat) (ks : List Nat) (A : Mat) (B : Vec) :
    elimBelow i n (k :: ks) A B =
      elimBelow i n ks (elimRowA i n k A) (elimRowB i k A B) := rfl

theorem elimBelow_spec (i n : Nat) :
    ∀ (ks : List Nat) (A : Mat) (B : Vec),
      (∀ k ∈ ks, i < k ∧ k < n) → ks.Nodup → i < n →
      A i i ≠ 0 → (∀ c, c < i → A i c = 0) →
      (∀ r c, r ∉ ks → (elimBelow i n ks A B).1 r c = A r c) ∧
      (∀ r, r ∉ ks → (elimBelow i n ks A B).2 r = B r) ∧
      (∀ x, SolvesSystem n (elimBelow i n ks A B).1 (elimBelow i n ks A B).2 x ↔
        SolvesSystem n A B x) ∧
      (∀ k, k ∈ ks → (elimBelow i n ks A B).1 k i = 0) ∧
      (∀ r c, c < i → (elimBelow i n ks A B).1 r c = A r c) := by
  intro ks
  induction ks with
  | nil =>
      intro A B hks hnd hin hAii hzi
      exact ⟨fun r c _ => rfl, fun r _ => rfl, fun x => Iff.rfl, by simp, fun r c _ => rfl⟩
  | cons k ks ih =>
      intro A B hks hnd hin hAii hzi
      have hk := hks k (List.mem_cons_self k ks)
      have hkstail : ∀ k2 ∈ ks, i < k2 ∧ k2 < n :=
        fun k2 hk2 => hks k2 (List.mem_cons_of_mem k hk2)
      have hndtail := (List.nodup_cons.mp hnd).2
      have hknotin := (List.nodup_cons.mp hnd).1
      rw [elimBelow_cons]
      have hA2ii : elimRowA i n k A i i = A i i := elimRowA_ne i n k A i i (by omega)
      have ihc := ih (elimRowA i n k A) (elimRowB i k A B)
        hkstail hndtail hin (by rw [hA2ii]; exact hAii)
        (fun c hc => by
          rw [elimRowA_ne i n k A i c (by omega)]
          exact hzi c hc)
      refine ⟨?_, ?_, ?_, ?_, ?_⟩
      · intro r c hr
        rw [ihc.1 r c (fun hmem => hr (List.mem_cons_of_mem k hmem))]
        exact elimRowA_ne i n k A r c
          (fun hcontra => hr (hcontra ▸ List.mem_cons_self k ks))
      · intro r hr
        rw [ihc.2.1 r (fun hmem => hr (List.mem_cons_of_mem k hmem))]
        exact elimRowB_ne i k A B r
          (fun hcontra => hr (hcontra ▸ List.mem_cons_self k ks))
      · intro x
        exact (ihc.2.2.1 x).trans
          (elimRow_solves_iff n i k A B x hzi hin hk.2 (by omega))
      · intro k2 hk2
        rcases List.mem_cons.mp hk2 with hk2 | hk2
        · subst hk2
          rw [ihc.1 k2 i hknotin]
          exact elimRowA_zeroes_pivot i n k2 A hin hAii
        · exact ihc.2.2.2.1 k2 hk2
      · intro r c hc
        rw [ihc.2.2.2.2 r c hc]
        exact elimRowA_lt i n k A r c hc

theorem forwardElim_spec (n : Nat) :
    ∀ (fuel i : Nat) (A : Mat) (B : Vec) (A2 : Mat) (B2 : Vec),
      i + fuel = n →
      (∀ r c, c < i → c < r → r < n → A r c = 0) →
      (∀ r, r < i → A r r ≠ 0) →
      forwardElim n fuel i A B = Except.ok (A2, B2) →
      (∀ x, SolvesSystem n A2 B2 x ↔ SolvesSystem n A B x) ∧
      (∀ r c, c < r → r < n → A2 r c = 0) ∧
      (∀ r, r < n → A2 r r ≠ 0) := by
  intro fuel
  induction fuel with
  | zero =>
      intro i A B A2 B2 hif hzero hdiag h
      simp only [forwardElim, Except.ok.injEq, Prod.mk.injEq] at h
      obtain ⟨hA, hB⟩ := h
      subst hA
      subst hB
      refine ⟨fun x => Iff.rfl, ?_, ?_⟩
      · intro r c hcr hrn
        exact hzero r c (by omega) hcr hrn
      · intro r hrn
        exact hdiag r (by omega)
  | succ fuel ih =>
      intro i A B A2 B2 hif hzero hdiag h
      have hin : i < n := by omega
      have hmr := maxRowSel_bounds A hin
      simp only [forwardElim] at h
      split at h
      · exact absurd h (by simp)
      · rename_i hpiv
        have hA1ii : swapRows A (maxRowSel A i n) i i i ≠ 0 := pivot_ne_zero hpiv
        have hzero1 : ∀ r c, c < i → c < r → r < n →
            swapRows A (maxRowSel A i n) i r c = 0 := by
          intro r c hc hcr hrn
          unfold swapRows
          split_ifs with e1 e2
          · exact hzero i c hc (by omega) hin
          · exact hzero (maxRowSel A i n) c hc (by omega) hmr.2
          · exact hzero r c hc hcr hrn
        have hdiag1 : ∀ r, r < i → swapRows A (maxRowSel A i n) i r r ≠ 0 := by
          intro r hr
          unfold swapRows
          rw [if_neg (by omega), if_neg (by omega)]
          exact hdiag r hr
        have hks : ∀ k ∈ List.range' (i + 1) (n - (i + 1)), i < k ∧ k < n := by
          intro k hkmem
          rw [List.mem_range'_1] at hkmem
          exact ⟨by omega, by omega⟩
        have hzi1 : ∀ c, c < i → swapRows A (maxRowSel A i n) i i c = 0 := by
          intro c hc
          exact hzero1 i c hc hc hin
        have espec := elimBelow_spec i n (List.range' (i + 1) (n - (i + 1)))
          (swapRows A (maxRowSel A i n) i) (swapVec B (maxRowSel A i n) i)
          hks (List.nodup_range' _ _) hin hA1ii hzi1
        have hzero2 : ∀ r c, c < i + 1 → c < r → r < n →
            (elimBelow i n (List.range' (i + 1) (n - (i + 1)))
              (swapRows A (maxRowSel A i n) i) (swapVec B (maxRowSel A i n) i)).1 r c = 0 := by
          intro r c hc hcr hrn
          by_cases hci : c < i
          · rw [espec.2.2.2.2 r c hci]
            exact hzero1 r c hci hcr hrn
          · have hceq : c = i := by omega
            subst hceq
            exact espec.2.2.2.1 r (by rw [List.mem_range'_1]; omega)
        have hdiag2 : ∀ r, r < i + 1 →
            (elimBelow i n (List.range' (i + 1) (n - (i + 1)))
              (swapRows A (maxRowSel A i n) i) (swapVec B (maxRowSel A i n) i)).1 r r ≠ 0 := by
          intro r hr
          have hrnot : r ∉ List.range' (i + 1) (n - (i + 1)) := by
            rw [List.mem_range'_1]
            omega
          rw [espec.1 r r hrnot]
          by_cases hri : r < i
          · exact hdiag1 r hri
          · have : r = i := by omega
            subst this
            exact hA1ii
        have ihc := ih (i + 1) _ _ A2 B2 (by omega) hzero2 hdiag2 h
        refine ⟨?_, ihc.2.1, ihc.2.2⟩
        intro x
        exact (ihc.1 x).trans ((espec.2.2.1 x).trans
          (solves_swap_iff n A B (maxRowSel A i n) i hmr.2 hin x))

theorem foldl_add_range' (g : Nat → ℚ) :
    ∀ (len s : Nat) (init : ℚ),
      (List.range' s len).foldl (fun acc j => acc + g j) init
        = init + ∑ j ∈ Finset.Ico s (s + len), g j := by
  intro len
  induction len with
  | zero => intro s init; simp
  | succ len ih =>
      intro s init
      rw [List.range'_succ, List.foldl_cons, ih (s + 1) (init + g s)]
      have hbot : ∑ j ∈ Finset.Ico s (s + (len + 1)), g j
          = g s + ∑ j ∈ Finset.Ico (s + 1) (s + (len + 1)), g j :=
        Finset.sum_eq_sum_Ico_succ_bot (by omega) g
      rw [hbot, show s + 1 + len = s + (len + 1) by omega]
      ring

theorem backSubstAux_stable (A : Mat) (B : Vec) (n : Nat) :
    ∀ (m2 m : Nat), m ≤ m2 → m2 ≤ n → ∀ r, n - m ≤ r →
      backSubstAux A B n m2 r = backSubstAux A B n m r := by
  intro m2
  induction m2 with
  | zero =>
      intro m hm _ r _
      have : m = 0 := by omega
      subst this
      rfl
  | succ m2 ih =>
      intro m hm hn r hr
      by_cases hmm : m = m2 + 1
      · subst hmm
        rfl
      · have hstep : backSubstAux A B n (m2 + 1) r = backSubstAux A B n m2 r := by
          simp only [backSubstAux]
          rw [if_neg (by omega)]
        rw [hstep]
        exact ih m (by omega) (by omega) r hr

theorem backSubstAux_row (A : Mat) (B : Vec) (n : Nat) :
    ∀ i, i < n →
      backSubstAux A B n n i
        = (B i - ∑ j ∈ Finset.Ico (i + 1) n, A i j * backSubstAux A B n n j) / A i i := by
  intro i hi
  obtain ⟨m, hm1, hm2⟩ : ∃ m, m + 1 ≤ n ∧ i = n - (m + 1) := ⟨n - i - 1, by omega, by omega⟩
  subst hm2
  rw [backSubstAux_stable A B n n (m + 1) hm1 (le_refl n) (n - (m + 1)) (by omega)]
  simp only [backSubstAux]
  rw [if_true]
  rw [foldl_add_range' (fun j => A (n - (m + 1)) j * backSubstAux A B n m j)
    (n - (n - (m + 1) + 1)) (n - (m + 1) + 1) 0]
  rw [zero_add]
  rw [show n - (m + 1) + 1 + (n - (n - (m + 1) + 1)) = n by omega]
  have hsum : ∀ j ∈ Finset.Ico (n - (m + 1) + 1) n,
      A (n - (m + 1)) j * backSubstAux A B n m j
        = A (n - (m + 1)) j * backSubstAux A B n n j := by
    intro j hj
    rw [Finset.mem_Ico] at hj
    rw [backSubstAux_stable A B n n m (by omega) (le_refl n) j (by omega)]
  rw [Finset.sum_congr rfl hsum]

theorem backSubst_solves (A : Mat) (B : Vec) (n : Nat)
    (htri : ∀ r c, c < r → r < n → A r c = 0)
    (hdiag : ∀ r, r < n → A r r ≠ 0) :
    SolvesSystem n A B (backSubstAux A B n n) := by
  intro r hr
  unfold dotRow
  rw [Finset.range_eq_Ico]
  rw [← Finset.sum_Ico_consecutive _ (Nat.zero_le r) (le_of_lt hr)]
  have hz : ∑ j ∈ Finset.Ico 0 r, A r j * backSubstAux A B n n j = 0 :=
    Finset.sum_eq_zero (fun j hj => by
      rw [Finset.mem_Ico] at hj
      rw [htri r j hj.2 hr]
      ring)
  rw [hz, zero_add]
  rw [Finset.sum_eq_sum_Ico_succ_bot hr]
  rw [backSubstAux_row A B n r hr]
  rw [mul_comm, div_mul_cancel₀ _ (hdiag r hr)]
  ring

/-- Claim C4: `gaussianElimination` is a correct linear solver,
independent of circuit semantics: whenever it returns a solution (that
is, every pivot passed the `EPSILON` check), the returned vector has
length `n` and satisfies `A·x = B` exactly, row by row, in the exact
rational model of the arithmetic. -/
theorem gaussianElimination_correct (n : Nat) (A : Mat) (B : Vec) (xs : List ℚ)
    (h : gaussianElimination n A B = Except.ok xs) :
    xs.length = n ∧ SolvesSystem n A B (fun j => xs.getD j 0) := by
  unfold gaussianElimination at h
  cases hf : forwardElim n n 0 A B with
  | error e =>
      rw [hf] at h
      exact absurd h (by simp)
  | ok AB =>
      obtain ⟨A2, B2⟩ := AB
      rw [hf] at h
      simp only [Except.ok.injEq] at h
      have hspec := forwardElim_spec n n 0 A B A2 B2 (by omega)
        (fun r c hc _ _ => absurd hc (Nat.not_lt_zero c))
        (fun r hrn => absurd hrn (Nat.not_lt_zero r)) hf
      have hsol := backSubst_solves A2 B2 n hspec.2.1 hspec.2.2
      have hx : SolvesSystem n A B (backSubstAux A2 B2 n n) := (hspec.1 _).mp hsol
      have hget : ∀ j, j < n → xs.getD j 0 = backSubstAux A2 B2 n n j := by
        intro j hj
        rw [← h]
        rw [List.getD_eq_getElem?_getD, List.getElem?_map, List.getElem?_range hj]
        rfl
      constructor
      · rw [← h]
        simp
      · intro r hr
        unfold dotRow
        have hcongr : ∀ j ∈ Finset.range n,
            A r j * (fun j => xs.getD j 0) j = A r j * backSubstAux A2 B2 n n j := by
          intro j hj
          rw [Finset.mem_range] at hj
          show A r j * xs.getD j 0 = A r j * backSubstAux A2 B2 n n j
          rw [hget j hj]
        rw [Finset.sum_congr rfl hcongr]
        exact hx r hr

/-- Witness for C4: the spec's pivoting example `A = [[0,1],[1,1]]`,
`B = [2,3]` (which requires a row swap) is solved as `x = [1,2]`, and
the residual check holds. -/
theorem gaussianElimination_correct_witness :
    gaussianElimination 2 pivotExampleA pivotExampleB = Except.ok [1, 2] ∧
    ([(1 : ℚ), 2].length = 2 ∧
      SolvesSystem 2 pivotExampleA pivotExampleB (fun j => [(1 : ℚ), 2].getD j 0)) := by
  have heval : gaussianElimination 2 pivotExampleA pivotExampleB = Except.ok [1, 2] := by
    norm_num +decide [gaussianElimination, forwardElim, maxRowSel, maxRowAux, swapRows,
      swapVec, elimBelow, backSubstAux, EPSILON, rabs, pivotExampleA, pivotExampleB,
      List.range', List.range, List.range.loop]
  exact ⟨heval, gaussianElimination_correct 2 pivotExampleA pivotExampleB [1, 2] heval⟩

/-- Witness for C5: stamping the voltage divider components over the
zero matrix puts `1` at `A[0][2]`/`A[2][0]` and `10` into `B[2]` for the
single voltage source `V1` from node 1 to ground. -/
theorem assemble_voltageSource_stamp_witness :
    (assemble 2 dividerExplicit.components ((fun _ _ => 0), (fun _ => 0), 0)).1 0 2 = 1 ∧
    (assemble 2 dividerExplicit.components ((fun _ _ => 0), (fun _ => 0), 0)).1 2 0 = 1 ∧
    (assemble 2 dividerExplicit.components ((fun _ _ => 0), (fun _ => 0), 0)).2.1 2 = 10 := by
  have h := assemble_voltageSource_stamp dividerExplicit.components 2 (fun _ _ => 0)
    (fun _ => 0) 0 ⟨"V1", 1, 0, 10, ComponentType.VOLTAGE_SOURCE⟩
    (by decide) (by decide) (by decide)
  exact ⟨(h.1 (by decide)).1, (h.1 (by decide)).2, h.2.2⟩

theorem dividerCircuit_explicit : dividerCircuit = dividerExplicit := rfl

set_option maxHeartbeats 4000000 in
/-- Claim C2: the voltage-divider scenario — `V1` 10 V from `A` to
`GND`, `R1` 10 Ω from `A` to `B`, `R2` 10 Ω from `B` to `GND` on a
fresh circuit — solves successfully and records exactly 10 V for node
`A` (identifier 1) and 5 V for node `B` (identifier 2), in particular
within the 1e-6 tolerance. -/
theorem voltage_divider_solution :
    dividerCircuit.nodeName_to_ID "A" = some 1 ∧
    dividerCircuit.nodeName_to_ID "B" = some 2 ∧
    dividerCircuit.solve.2 = none ∧
    dividerCircuit.solve.1.nodeVoltages 1 = some 10 ∧
    dividerCircuit.solve.1.nodeVoltages 2 = some 5 ∧
    rabs ((dividerCircuit.solve.1.nodeVoltages 1).getD 0 - 10) < 1 / 1000000 ∧
    rabs ((dividerCircuit.solve.1.nodeVoltages 2).getD 0 - 5) < 1 / 1000000 := by
  rw [dividerCircuit_explicit]
  have hmain : dividerExplicit.solve.2 = none ∧
      dividerExplicit.solve.1.nodeVoltages 1 = some 10 ∧
      dividerExplicit.solve.1.nodeVoltages 2 = some 5 := by
    norm_num +decide [dividerExplicit, Circuit.solve, Circuit.solveResult,
      assemble, stampComponent, Component.getConductance,
      gaussianElimination, forwardElim, maxRowSel, maxRowAux,
      swapRows, swapVec, elimBelow, backSubstAux, EPSILON, rabs,
      updateVoltages, vmapInsert, List.range', List.range, List.range.loop,
      List.filter_cons, List.filter_nil, List.any_cons, List.any_nil, beq_iff_eq]
  refine ⟨by decide, by decide, hmain.1, hmain.2.1, hmain.2.2, ?_, ?_⟩
  · rw [hmain.2.1]
    norm_num [rabs]
  · rw [hmain.2.2]
    norm_num [rabs]

end CircuitSolver
